import Mathlib

/-!
Verification development for the Cairn voxel-world core (`src/game`):
coordinate conversions, chunk storage, world streaming, and meshing.

Shallow embedding conventions:
* Rust `i32` values are modelled as `Int`.  Every arithmetic step performed by
  the embedded functions stays within `i32` range for all `i32` inputs
  (`div_euclid` by 32 shrinks magnitude; `chunk * 32` never exceeds the
  original coordinate in magnitude), so unbounded `Int` arithmetic agrees with
  the machine arithmetic on the whole `i32` domain.
* The two pointer-width casts that appear in the coordinate code
  (`as usize` on an `i32`, `as i32` on a `usize`) are modelled bit-faithfully:
  `usize_of_i32` reduces modulo 2^64 (two's-complement reinterpretation after
  sign extension) and `i32_of_usize` takes the balanced residue modulo 2^32.
* Rust `HashMap`/`HashSet` state is modelled as functions into `Option` /
  membership in the generating list, which is exactly the key-value semantics
  the source relies on.
* `f32` vertex data is modelled over `ℚ`; the claims checked here only inspect
  vertex counts and index values, and every coordinate the mesher produces
  (integer ± 1/2, atlas lookups) is exact in either carrier.
* The texture atlas is image-decoding glue built from PNG assets; it is
  modelled at its lookup interface (`get_coordinates`) as an arbitrary
  function from texture types to UV rectangles, which the mesher threads
  through unchanged.
-/

namespace Cairn

/-- Source `CHUNK_SIZE` from `src/game/chunk/mod.rs`. -/
def CHUNK_SIZE : Nat := 32

/-- Source `RENDER_DISTANCE_XZ` from `src/game/world/mod.rs`. -/
def RENDER_DISTANCE_XZ : Int := 6

/-- Source `RENDER_DISTANCE_Y` from `src/game/world/mod.rs`. -/
def RENDER_DISTANCE_Y : Int := 3

/-- Rust `v as usize` applied to an `i32`: sign-extend, reinterpret mod 2^64. -/
def usize_of_i32 (v : Int) : Nat := (v % (2 ^ 64 : Int)).toNat

/-- Rust `n as i32` applied to a `usize`: low 32 bits, two's complement. -/
def i32_of_usize (n : Nat) : Int := Int.bmod (n : Int) (2 ^ 32)

/-- Source `WorldPosition` (`src/game/world/position.rs`): absolute voxel coordinates. -/
structure WorldPosition where
  x : Int
  y : Int
  z : Int
deriving DecidableEq

/-- Source `ChunkPosition` (`src/game/world/position.rs`): chunk-grid coordinates. -/
structure ChunkPosition where
  x : Int
  y : Int
  z : Int
deriving DecidableEq

/-- Source `LocalChunkPosition` (`src/game/world/position.rs`): `usize` coordinates
within one chunk. -/
structure LocalChunkPosition where
  x : Nat
  y : Nat
  z : Nat
deriving DecidableEq

/-- Source `WorldPosition::chunk_position`: floor-divide each axis by `CHUNK_SIZE`
(Rust `div_euclid`; Lean `Int` `/` is Euclidean division). -/
def WorldPosition.chunk_position (p : WorldPosition) : ChunkPosition :=
  ⟨p.x / (CHUNK_SIZE : Int), p.y / (CHUNK_SIZE : Int), p.z / (CHUNK_SIZE : Int)⟩

/-- Source `WorldPosition::local_chunk_position`: owning chunk plus in-chunk offset,
with the `i32 → usize` casts of the source. -/
def WorldPosition.local_chunk_position (p : WorldPosition) :
    ChunkPosition × LocalChunkPosition :=
  let chunk := p.chunk_position
  (chunk,
    ⟨usize_of_i32 (p.x - chunk.x * (CHUNK_SIZE : Int)),
     usize_of_i32 (p.y - chunk.y * (CHUNK_SIZE : Int)),
     usize_of_i32 (p.z - chunk.z * (CHUNK_SIZE : Int))⟩)

/-- Source `WorldPosition::front` (+Z). -/
def WorldPosition.front (p : WorldPosition) : WorldPosition := ⟨p.x, p.y, p.z + 1⟩

/-- Source `WorldPosition::back` (-Z). -/
def WorldPosition.back (p : WorldPosition) : WorldPosition := ⟨p.x, p.y, p.z - 1⟩

/-- Source `WorldPosition::right` (+X). -/
def WorldPosition.right (p : WorldPosition) : WorldPosition := ⟨p.x + 1, p.y, p.z⟩

/-- Source `WorldPosition::left` (-X). -/
def WorldPosition.left (p : WorldPosition) : WorldPosition := ⟨p.x - 1, p.y, p.z⟩

/-- Source `WorldPosition::top` (+Y). -/
def WorldPosition.top (p : WorldPosition) : WorldPosition := ⟨p.x, p.y + 1, p.z⟩

/-- Source `WorldPosition::bottom` (-Y). -/
def WorldPosition.bottom (p : WorldPosition) : WorldPosition := ⟨p.x, p.y - 1, p.z⟩

/-- Source `LocalChunkPosition::world_position`: local offset plus `chunk * CHUNK_SIZE`,
with the source's `usize → i32` casts. -/
def LocalChunkPosition.world_position (l : LocalChunkPosition)
    (chunk : ChunkPosition) : WorldPosition :=
  ⟨i32_of_usize l.x + chunk.x * (CHUNK_SIZE : Int),
   i32_of_usize l.y + chunk.y * (CHUNK_SIZE : Int),
   i32_of_usize l.z + chunk.z * (CHUNK_SIZE : Int)⟩

lemma usize_of_i32_small {v : Int} (h0 : 0 ≤ v) (h1 : v < 32) :
    usize_of_i32 v = v.toNat := by
  unfold usize_of_i32
  omega

lemma i32_of_usize_small {n : Nat} (h : n < 32) : i32_of_usize n = n := by
  unfold i32_of_usize
  simp only [Int.bmod]
  omega

lemma local_axis_bounds (x : Int) :
    0 ≤ x - x / (CHUNK_SIZE : Int) * (CHUNK_SIZE : Int) ∧
      x - x / (CHUNK_SIZE : Int) * (CHUNK_SIZE : Int) < 32 := by
  simp only [CHUNK_SIZE]
  omega

lemma axis_roundtrip (x : Int) :
    i32_of_usize (usize_of_i32 (x - x / (CHUNK_SIZE : Int) * (CHUNK_SIZE : Int))) +
      x / (CHUNK_SIZE : Int) * (CHUNK_SIZE : Int) = x := by
  obtain ⟨h0, h1⟩ := local_axis_bounds x
  rw [usize_of_i32_small h0 h1, i32_of_usize_small (by omega)]
  simp only [CHUNK_SIZE] at *
  omega

/-- C4: for every `WorldPosition` (negative coordinates included), converting to
`(ChunkPosition, LocalChunkPosition)` with `local_chunk_position` and mapping
back with `world_position` restores the original position on all three axes. -/
theorem spec_c4_world_local_roundtrip (p : WorldPosition) :
    (p.local_chunk_position).2.world_position (p.local_chunk_position).1 = p := by
  obtain ⟨x, y, z⟩ := p
  simp only [WorldPosition.local_chunk_position, WorldPosition.chunk_position,
    LocalChunkPosition.world_position, WorldPosition.mk.injEq]
  exact ⟨axis_roundtrip x, axis_roundtrip y, axis_roundtrip z⟩

/-- C5: every `LocalChunkPosition` produced by `local_chunk_position` has each
axis in `[0, CHUNK_SIZE)` (the lower bound is inherent to the `Nat` carrier of
`usize`), for every world position including negative coordinates — the
conversion divides with floor (Euclidean) semantics. -/
theorem spec_c5_local_position_in_range (p : WorldPosition) :
    (p.local_chunk_position).2.x < CHUNK_SIZE ∧
      (p.local_chunk_position).2.y < CHUNK_SIZE ∧
      (p.local_chunk_position).2.z < CHUNK_SIZE := by
  obtain ⟨x, y, z⟩ := p
  simp only [WorldPosition.local_chunk_position, WorldPosition.chunk_position]
  refine ⟨?_, ?_, ?_⟩ <;>
    · rw [usize_of_i32_small (local_axis_bounds _).1 (local_axis_bounds _).2]
      simp only [CHUNK_SIZE]
      omega

/-- Source `VoxelType` (`src/game/voxel/registry.rs`): `#[repr(u16)]` enum
`Air = 0, Stone = 1, Dirt = 2, Grass = 3`. -/
inductive VoxelType where
  | Air
  | Stone
  | Dirt
  | Grass
deriving DecidableEq

/-- Source `TextureType` (`src/game/render/atlas.rs`). -/
inductive TextureType where
  | Error
  | Air
  | Stone
  | Dirt
  | GrassSide
  | GrassTop
deriving DecidableEq

/-- Source `VoxelTextures` (`src/game/voxel/registry.rs`). -/
structure VoxelTextures where
  front : TextureType
  back : TextureType
  right : TextureType
  left : TextureType
  top : TextureType
  bottom : TextureType
deriving DecidableEq

/-- Source `VoxelTextures::uniform`. -/
def VoxelTextures.uniform (texture : TextureType) : VoxelTextures :=
  ⟨texture, texture, texture, texture, texture, texture⟩

/-- Source `VoxelTextures::top_bottom`. -/
def VoxelTextures.top_bottom (top_texture bottom_texture side_texture : TextureType) :
    VoxelTextures :=
  ⟨side_texture, side_texture, side_texture, side_texture, top_texture, bottom_texture⟩

/-- Source `VoxelProperties` (`src/game/voxel/registry.rs`). -/
structure VoxelProperties where
  textures : VoxelTextures
  is_invisible : Bool
  is_occluding : Bool
deriving DecidableEq

/-- Source `VoxelProperties::front_texture`. -/
def VoxelProperties.front_texture (p : VoxelProperties) : TextureType := p.textures.front

/-- Source `VoxelProperties::back_texture`. -/
def VoxelProperties.back_texture (p : VoxelProperties) : TextureType := p.textures.back

/-- Source `VoxelProperties::right_texture`. -/
def VoxelProperties.right_texture (p : VoxelProperties) : TextureType := p.textures.right

/-- Source `VoxelProperties::left_texture`. -/
def VoxelProperties.left_texture (p : VoxelProperties) : TextureType := p.textures.left

/-- Source `VoxelProperties::top_texture`. -/
def VoxelProperties.top_texture (p : VoxelProperties) : TextureType := p.textures.top

/-- Source `VoxelProperties::bottom_texture`. -/
def VoxelProperties.bottom_texture (p : VoxelProperties) : TextureType := p.textures.bottom

/-- Source `VoxelRegistry::get_properties` over the table built by
`VoxelRegistry::init` (`src/game/voxel/registry.rs`).  The source stores the
four entries in a `HashMap` and panics on a missing key; the table is total on
the closed `VoxelType` enum, so the lookup is a total function.  The `Stone`,
`Dirt`, and `Grass` entries take `is_invisible = false, is_occluding = true`
from `Default for VoxelProperties`. -/
def VoxelRegistry.get_properties : VoxelType → VoxelProperties
  | VoxelType.Air => ⟨VoxelTextures.uniform TextureType.Air, true, false⟩
  | VoxelType.Stone => ⟨VoxelTextures.uniform TextureType.Stone, false, true⟩
  | VoxelType.Dirt => ⟨VoxelTextures.uniform TextureType.Dirt, false, true⟩
  | VoxelType.Grass =>
      ⟨VoxelTextures.top_bottom TextureType.GrassTop TextureType.Dirt TextureType.GrassSide,
        false, true⟩

/-- Source `Chunk` (`src/game/chunk/mod.rs`): a chunk position plus the dense voxel
array.  The source stores `Vec<u16>` codes and converts with the
`IntoPrimitive`/`TryFromPrimitive` bijection on every access; the array is
modelled by the decoded `VoxelType` values, which is lossless because every
stored code comes from `VoxelType::into`.  The length invariant mirrors the
source: every constructor allocates exactly `CHUNK_SIZE^3` cells and `set`
never resizes, so `Chunk::get_voxel_type`'s in-range indexing (and its
`try_from ... expect`) cannot fail. -/
structure Chunk where
  position : ChunkPosition
  voxels : List VoxelType
  h_len : voxels.length = CHUNK_SIZE * CHUNK_SIZE * CHUNK_SIZE

/-- Source `Chunk::index`: the fixed linearization `x + y*S + z*S*S`. -/
def Chunk.index (x y z : Nat) : Nat :=
  x + y * CHUNK_SIZE + z * CHUNK_SIZE * CHUNK_SIZE

/-- Source `Chunk::empty`: all cells Air. -/
def Chunk.empty (position : ChunkPosition) : Chunk :=
  ⟨position, List.replicate (CHUNK_SIZE * CHUNK_SIZE * CHUNK_SIZE) VoxelType.Air, by simp⟩

/-- Source `Chunk::set_voxel`: bounds-checked write; out-of-range is a no-op (the
source logs a warning and returns). -/
def Chunk.set_voxel (c : Chunk) (local_position : LocalChunkPosition)
    (voxel_type : VoxelType) : Chunk :=
  if CHUNK_SIZE ≤ local_position.x ∨ CHUNK_SIZE ≤ local_position.y ∨
      CHUNK_SIZE ≤ local_position.z then c
  else
    ⟨c.position,
     c.voxels.set (Chunk.index local_position.x local_position.y local_position.z) voxel_type,
     by rw [List.length_set]; exact c.h_len⟩

/-- Source `Chunk::set_y_slice`: fill one horizontal slice; no-op with a warning when
`y` is out of range. -/
def Chunk.set_y_slice (c : Chunk) (y : Nat) (voxel_type : VoxelType) : Chunk :=
  if CHUNK_SIZE ≤ y then c
  else
    (List.range CHUNK_SIZE).foldl
      (fun c1 x =>
        (List.range CHUNK_SIZE).foldl
          (fun c2 z => c2.set_voxel ⟨x, y, z⟩ voxel_type) c1)
      c

/-- Rust inclusive range `a..=b` over `usize`, as the list it iterates. -/
def range_inclusive (a b : Nat) : List Nat :=
  (List.range (b + 1 - a)).map (a + ·)

/-- Source `Chunk::set_y_range`: fill the slices of an inclusive y-range. -/
def Chunk.set_y_range (c : Chunk) (a b : Nat) (voxel_type : VoxelType) : Chunk :=
  (range_inclusive a b).foldl (fun ch y => ch.set_y_slice y voxel_type) c

/-- Source `Chunk::dev_chunk`: grass at y = 31, dirt for y in 27..=30, stone for
y in 0..=26 — applied to the empty chunk at the given position. -/
def Chunk.dev_chunk (position : ChunkPosition) : Chunk :=
  (((Chunk.empty position).set_y_slice 31 VoxelType.Grass).set_y_range 27 30
      VoxelType.Dirt).set_y_range 0 26 VoxelType.Stone

/-- Source `Chunk::get_voxel_type`: bounds-checked read; out-of-range returns Air,
in-range reads the linearized cell (total thanks to the length invariant). -/
def Chunk.get_voxel_type (c : Chunk) (local_position : LocalChunkPosition) : VoxelType :=
  if h : CHUNK_SIZE ≤ local_position.x ∨ CHUNK_SIZE ≤ local_position.y ∨
      CHUNK_SIZE ≤ local_position.z then VoxelType.Air
  else
    c.voxels.get
      ⟨Chunk.index local_position.x local_position.y local_position.z, by
        push_neg at h
        have hlen := c.h_len
        simp only [Chunk.index, CHUNK_SIZE] at *
        omega⟩

lemma chunk_index_inj {px py pz qx qy qz : Nat}
    (hp : px < CHUNK_SIZE ∧ py < CHUNK_SIZE ∧ pz < CHUNK_SIZE)
    (hq : qx < CHUNK_SIZE ∧ qy < CHUNK_SIZE ∧ qz < CHUNK_SIZE) :
    Chunk.index px py pz = Chunk.index qx qy qz ↔ px = qx ∧ py = qy ∧ pz = qz := by
  simp only [Chunk.index, CHUNK_SIZE] at *
  omega

lemma local_eq_iff {p q : LocalChunkPosition} :
    p = q ↔ p.x = q.x ∧ p.y = q.y ∧ p.z = q.z := by
  obtain ⟨px, py, pz⟩ := p
  obtain ⟨qx, qy, qz⟩ := q
  simp

lemma get_set_voxel (c : Chunk) (p q : LocalChunkPosition) (t : VoxelType)
    (hq : q.x < CHUNK_SIZE ∧ q.y < CHUNK_SIZE ∧ q.z < CHUNK_SIZE) :
    (c.set_voxel p t).get_voxel_type q = if p = q then t else c.get_voxel_type q := by
  by_cases hp : CHUNK_SIZE ≤ p.x ∨ CHUNK_SIZE ≤ p.y ∨ CHUNK_SIZE ≤ p.z
  · rw [Chunk.set_voxel, if_pos hp, if_neg]
    intro heq
    rw [local_eq_iff] at heq
    omega
  · push_neg at hp
    rw [Chunk.set_voxel, if_neg (by omega)]
    simp only [Chunk.get_voxel_type]
    rw [dif_neg (by omega), dif_neg (by omega)]
    simp only [List.get_eq_getElem, List.getElem_set]
    by_cases heq : p = q
    · rw [if_pos, if_pos heq]
      exact (chunk_index_inj hp hq).mpr (local_eq_iff.mp heq)
    · rw [if_neg, if_neg heq]
      intro hidx
      exact heq (local_eq_iff.mpr ((chunk_index_inj hp hq).mp hidx))

lemma get_foldl_set_z (t : VoxelType) (x y : Nat) (zs : List Nat) (c : Chunk)
    (q : LocalChunkPosition)
    (hq : q.x < CHUNK_SIZE ∧ q.y < CHUNK_SIZE ∧ q.z < CHUNK_SIZE) :
    (zs.foldl (fun c2 z => c2.set_voxel ⟨x, y, z⟩ t) c).get_voxel_type q =
      if q.x = x ∧ q.y = y ∧ q.z ∈ zs then t else c.get_voxel_type q := by
  induction zs generalizing c with
  | nil => simp
  | cons z zs ih =>
    rw [List.foldl_cons, ih _, get_set_voxel _ _ _ _ hq]
    obtain ⟨qx, qy, qz⟩ := q
    simp only [LocalChunkPosition.mk.injEq, List.mem_cons]
    by_cases h1 : qx = x <;> by_cases h2 : qy = y <;> by_cases h3 : z = qz <;>
      by_cases h4 : qz ∈ zs <;> simp_all <;>
      first
      | rw [if_neg (by omega)]
      | rw [if_pos (by omega)]
      | omega
      | (intro h5; omega)

lemma get_foldl_set_x (t : VoxelType) (y : Nat) (xs : List Nat) (c : Chunk)
    (q : LocalChunkPosition)
    (hq : q.x < CHUNK_SIZE ∧ q.y < CHUNK_SIZE ∧ q.z < CHUNK_SIZE) :
    (xs.foldl
        (fun c1 x =>
          (List.range CHUNK_SIZE).foldl (fun c2 z => c2.set_voxel ⟨x, y, z⟩ t) c1)
        c).get_voxel_type q =
      if q.x ∈ xs ∧ q.y = y then t else c.get_voxel_type q := by
  induction xs generalizing c with
  | nil => simp
  | cons x xs ih =>
    rw [List.foldl_cons, ih _, get_foldl_set_z t x y _ _ q hq]
    have hz : q.z ∈ List.range CHUNK_SIZE := List.mem_range.mpr hq.2.2
    simp only [List.mem_cons, hz, and_true]
    by_cases h1 : q.x = x <;> by_cases h2 : q.y = y <;> by_cases h3 : q.x ∈ xs <;>
      simp_all

lemma get_set_y_slice (c : Chunk) (y : Nat) (t : VoxelType) (q : LocalChunkPosition)
    (hq : q.x < CHUNK_SIZE ∧ q.y < CHUNK_SIZE ∧ q.z < CHUNK_SIZE) :
    (c.set_y_slice y t).get_voxel_type q =
      if q.y = y then t else c.get_voxel_type q := by
  rw [Chunk.set_y_slice]
  by_cases hy : CHUNK_SIZE ≤ y
  · rw [if_pos hy, if_neg (by omega)]
  · rw [if_neg hy, get_foldl_set_x t y _ _ q hq]
    have hx : q.x ∈ List.range CHUNK_SIZE := List.mem_range.mpr hq.1
    simp [hx]

lemma get_foldl_slice (t : VoxelType) (ys : List Nat) (c : Chunk)
    (q : LocalChunkPosition)
    (hq : q.x < CHUNK_SIZE ∧ q.y < CHUNK_SIZE ∧ q.z < CHUNK_SIZE) :
    (ys.foldl (fun ch y => ch.set_y_slice y t) c).get_voxel_type q =
      if q.y ∈ ys then t else c.get_voxel_type q := by
  induction ys generalizing c with
  | nil => simp
  | cons y ys ih =>
    rw [List.foldl_cons, ih _, get_set_y_slice _ _ _ _ hq]
    simp only [List.mem_cons]
    by_cases h1 : q.y = y <;> by_cases h2 : q.y ∈ ys <;> simp_all

lemma mem_range_inclusive {a b n : Nat} : n ∈ range_inclusive a b ↔ a ≤ n ∧ n ≤ b := by
  simp only [range_inclusive, List.mem_map, List.mem_range]
  constructor
  · rintro ⟨i, hi, rfl⟩
    omega
  · intro h
    exact ⟨n - a, by omega, by omega⟩

lemma get_set_y_range (c : Chunk) (a b : Nat) (t : VoxelType) (q : LocalChunkPosition)
    (hq : q.x < CHUNK_SIZE ∧ q.y < CHUNK_SIZE ∧ q.z < CHUNK_SIZE) :
    (c.set_y_range a b t).get_voxel_type q =
      if a ≤ q.y ∧ q.y ≤ b then t else c.get_voxel_type q := by
  rw [Chunk.set_y_range, get_foldl_slice t _ _ q hq]
  simp only [mem_range_inclusive]

lemma get_empty (position : ChunkPosition) (q : LocalChunkPosition) :
    (Chunk.empty position).get_voxel_type q = VoxelType.Air := by
  rw [Chunk.get_voxel_type]
  split
  · rfl
  · simp [Chunk.empty, List.get_eq_getElem]

/-- The full behaviour of `Chunk::dev_chunk` on in-range cells: the layered
fill is produced for every chunk position, with no dependence on the chunk's
Y-layer. -/
lemma dev_chunk_char (position : ChunkPosition) (q : LocalChunkPosition)
    (hq : q.x < CHUNK_SIZE ∧ q.y < CHUNK_SIZE ∧ q.z < CHUNK_SIZE) :
    (Chunk.dev_chunk position).get_voxel_type q =
      if q.y = 31 then VoxelType.Grass
      else if 27 ≤ q.y then VoxelType.Dirt
      else VoxelType.Stone := by
  rw [Chunk.dev_chunk, get_set_y_range _ _ _ _ _ hq, get_set_y_range _ _ _ _ _ hq,
    get_set_y_slice _ _ _ _ hq, get_empty]
  have hy := hq.2.1
  rw [CHUNK_SIZE] at hy
  split_ifs <;> first | rfl | omega

/-- C3 counterexample: at chunk position `(0, 1, 0)` — a Y-layer other than the
ground layer — `dev_chunk` still stores Stone at local cell `(0, 0, 0)`, so the
chunk is not all-Air as the claim states. -/
theorem spec_c3_counterexample :
    (Chunk.dev_chunk ⟨0, 1, 0⟩).get_voxel_type ⟨0, 0, 0⟩ = VoxelType.Stone ∧
      VoxelType.Stone ≠ VoxelType.Air := by
  refine ⟨?_, by decide⟩
  rw [dev_chunk_char ⟨0, 1, 0⟩ ⟨0, 0, 0⟩ (by decide)]
  simp

/-- C3 (amended): `Chunk::dev_chunk` produces the layered terrain fill
(stone for local y in 0..=26, dirt for 27..=30, grass at 31) for every chunk
position at every Y-layer of the chunk grid; no chunk position produces an
all-Air chunk, so the Y-layer never selects an empty chunk. -/
theorem spec_c3_dev_chunk_every_layer (position : ChunkPosition)
    (q : LocalChunkPosition) (hx : q.x < CHUNK_SIZE) (hy : q.y < CHUNK_SIZE)
    (hz : q.z < CHUNK_SIZE) :
    (Chunk.dev_chunk position).get_voxel_type q =
      (if q.y = 31 then VoxelType.Grass
       else if 27 ≤ q.y then VoxelType.Dirt
       else VoxelType.Stone) :=
  dev_chunk_char position q ⟨hx, hy, hz⟩

/-- C3 witness: the amended claim evaluated at chunk position `(0, 7, 0)`
(an arbitrary non-ground Y-layer) and local cell `(1, 5, 2)`. -/
theorem spec_c3_witness :
    ((1 : Nat) < CHUNK_SIZE ∧ (5 : Nat) < CHUNK_SIZE ∧ (2 : Nat) < CHUNK_SIZE) ∧
      (Chunk.dev_chunk ⟨0, 7, 0⟩).get_voxel_type ⟨1, 5, 2⟩ = VoxelType.Stone := by
  refine ⟨by decide, ?_⟩
  have h := spec_c3_dev_chunk_every_layer ⟨0, 7, 0⟩ ⟨1, 5, 2⟩ (by decide) (by decide)
    (by decide)
  simpa using h

/-- C8: for any chunk and any local position with an axis at or beyond
`CHUNK_SIZE`, `get_voxel_type` returns Air and `set_voxel` returns the chunk
unchanged; moreover `set_voxel` never changes the voxel-array length for any
input whatsoever. -/
theorem spec_c8_out_of_range_get_set (c : Chunk) (p : LocalChunkPosition)
    (t : VoxelType)
    (h : CHUNK_SIZE ≤ p.x ∨ CHUNK_SIZE ≤ p.y ∨ CHUNK_SIZE ≤ p.z) :
    c.get_voxel_type p = VoxelType.Air ∧ c.set_voxel p t = c ∧
      ∀ (q : LocalChunkPosition) (u : VoxelType),
        ((c.set_voxel q u).voxels).length = c.voxels.length := by
  refine ⟨?_, ?_, ?_⟩
  · rw [Chunk.get_voxel_type, dif_pos h]
  · rw [Chunk.set_voxel, if_pos h]
  · intro q u
    rw [Chunk.set_voxel]
    split
    · rfl
    · simp

/-- C8 witness: the out-of-range behaviour evaluated on the empty chunk at the
origin with local position `(32, 0, 0)`. -/
theorem spec_c8_witness :
    (CHUNK_SIZE ≤ 32 ∨ CHUNK_SIZE ≤ 0 ∨ CHUNK_SIZE ≤ 0) ∧
      ((Chunk.empty ⟨0, 0, 0⟩).get_voxel_type ⟨32, 0, 0⟩ = VoxelType.Air ∧
        (Chunk.empty ⟨0, 0, 0⟩).set_voxel ⟨32, 0, 0⟩ VoxelType.Grass =
          Chunk.empty ⟨0, 0, 0⟩ ∧
        ∀ (q : LocalChunkPosition) (u : VoxelType),
          (((Chunk.empty ⟨0, 0, 0⟩).set_voxel q u).voxels).length =
            (Chunk.empty ⟨0, 0, 0⟩).voxels.length) :=
  ⟨by decide,
    spec_c8_out_of_range_get_set (Chunk.empty ⟨0, 0, 0⟩) ⟨32, 0, 0⟩ VoxelType.Grass
      (by decide)⟩

/-- Source `TextureCoordinates` (`src/game/render/atlas.rs`), `f32` fields over `ℚ`. -/
structure TextureCoordinates where
  u_min : ℚ
  u_max : ℚ
  v_min : ℚ
  v_max : ℚ

/-- The texture atlas at its lookup interface (`TextureAtlas::get_coordinates`):
an arbitrary total assignment of UV rectangles to texture types.  The packing
of the atlas image itself is out-of-scope collaborator glue. -/
def TextureAtlas : Type := TextureType → TextureCoordinates

/-- Source `Vertex` (`src/game/mesh/vertex.rs`): position and UV, `f32` over `ℚ`. -/
structure Vertex where
  position : ℚ × ℚ × ℚ
  texture_coordinates : ℚ × ℚ

/-- Source `Mesh` (`src/game/mesh/mod.rs`): vertex list plus `u32` index list. -/
structure Mesh where
  vertices : List Vertex
  indices : List Nat

/-- Source `Mesh::index_count`. -/
def Mesh.index_count (m : Mesh) : Nat := m.indices.length

/-- Source `OccludingVoxelNeighbors` (`src/game/mesh/mod.rs`). -/
structure OccludingVoxelNeighbors where
  front : Bool
  back : Bool
  right : Bool
  left : Bool
  top : Bool
  bottom : Bool

/-- Source `Mesh::extend_indices`: pushes the six quad indices computed from the
CURRENT length of the vertex buffer (the source reads `vertices.len()` after
the quad's four vertices were already pushed). -/
def Mesh.extend_indices (vertices : List Vertex) (indices : List Nat) : List Nat :=
  let vertex_count := vertices.length
  indices ++
    [vertex_count, vertex_count + 1, vertex_count + 2, vertex_count + 2,
      vertex_count + 3, vertex_count]

/-- One face branch of `Mesh::voxel`: when the neighbor flag is clear, extend
the vertex buffer by the quad and then call `extend_indices` on the already
extended buffer, exactly as the source does. -/
def Mesh.add_face (state : List Vertex × List Nat) (occluded : Bool)
    (quad : List Vertex) : List Vertex × List Nat :=
  if occluded then state
  else
    let vertices := state.1 ++ quad
    (vertices, Mesh.extend_indices vertices state.2)

/-- Source `Mesh::voxel` (`src/game/mesh/mod.rs` lines 32-117): emit a quad for each
of the six faces whose occluding-neighbor flag is false, in source order
front, back, right, left, top, bottom, with the source's literal corner
positions and UV corners. -/
def Mesh.voxel (world_position : WorldPosition) (voxel_properties : VoxelProperties)
    (texture_atlas : TextureAtlas) (occluding_neighbors : OccludingVoxelNeighbors) :
    Mesh :=
  let x : ℚ := world_position.x
  let y : ℚ := world_position.y
  let z : ℚ := world_position.z
  let s0 : List Vertex × List Nat := ([], [])
  let cf := texture_atlas voxel_properties.front_texture
  let s1 := Mesh.add_face s0 occluding_neighbors.front
    [⟨(x - 1/2, y - 1/2, z + 1/2), (cf.u_min, cf.v_max)⟩,
     ⟨(x + 1/2, y - 1/2, z + 1/2), (cf.u_max, cf.v_max)⟩,
     ⟨(x + 1/2, y + 1/2, z + 1/2), (cf.u_max, cf.v_min)⟩,
     ⟨(x - 1/2, y + 1/2, z + 1/2), (cf.u_min, cf.v_min)⟩]
  let cb := texture_atlas voxel_properties.back_texture
  let s2 := Mesh.add_face s1 occluding_neighbors.back
    [⟨(x - 1/2, y - 1/2, z - 1/2), (cb.u_max, cb.v_max)⟩,
     ⟨(x - 1/2, y + 1/2, z - 1/2), (cb.u_max, cb.v_min)⟩,
     ⟨(x + 1/2, y + 1/2, z - 1/2), (cb.u_min, cb.v_min)⟩,
     ⟨(x + 1/2, y - 1/2, z - 1/2), (cb.u_min, cb.v_max)⟩]
  let cr := texture_atlas voxel_properties.right_texture
  let s3 := Mesh.add_face s2 occluding_neighbors.right
    [⟨(x + 1/2, y - 1/2, z - 1/2), (cr.u_max, cr.v_max)⟩,
     ⟨(x + 1/2, y + 1/2, z - 1/2), (cr.u_max, cr.v_min)⟩,
     ⟨(x + 1/2, y + 1/2, z + 1/2), (cr.u_min, cr.v_min)⟩,
     ⟨(x + 1/2, y - 1/2, z + 1/2), (cr.u_min, cr.v_max)⟩]
  let cl := texture_atlas voxel_properties.left_texture
  let s4 := Mesh.add_face s3 occluding_neighbors.left
    [⟨(x - 1/2, y - 1/2, z - 1/2), (cl.u_min, cl.v_max)⟩,
     ⟨(x - 1/2, y - 1/2, z + 1/2), (cl.u_max, cl.v_max)⟩,
     ⟨(x - 1/2, y + 1/2, z + 1/2), (cl.u_max, cl.v_min)⟩,
     ⟨(x - 1/2, y + 1/2, z - 1/2), (cl.u_min, cl.v_min)⟩]
  let ct := texture_atlas voxel_properties.top_texture
  let s5 := Mesh.add_face s4 occluding_neighbors.top
    [⟨(x - 1/2, y + 1/2, z - 1/2), (ct.u_min, ct.v_min)⟩,
     ⟨(x - 1/2, y + 1/2, z + 1/2), (ct.u_min, ct.v_max)⟩,
     ⟨(x + 1/2, y + 1/2, z + 1/2), (ct.u_max, ct.v_max)⟩,
     ⟨(x + 1/2, y + 1/2, z - 1/2), (ct.u_max, ct.v_min)⟩]
  let cd := texture_atlas voxel_properties.bottom_texture
  let s6 := Mesh.add_face s5 occluding_neighbors.bottom
    [⟨(x - 1/2, y - 1/2, z - 1/2), (cd.u_min, cd.v_max)⟩,
     ⟨(x + 1/2, y - 1/2, z - 1/2), (cd.u_max, cd.v_max)⟩,
     ⟨(x + 1/2, y - 1/2, z + 1/2), (cd.u_max, cd.v_min)⟩,
     ⟨(x - 1/2, y - 1/2, z + 1/2), (cd.u_min, cd.v_min)⟩]
  ⟨s6.1, s6.2⟩

/-- Source `Mesh::merged`: concatenate vertex buffers and append index buffers with a
running vertex-count rebase. -/
def Mesh.merged (meshes : List Mesh) : Mesh :=
  let result := meshes.foldl
    (fun (acc : List Vertex × List Nat × Nat) mesh =>
      (acc.1 ++ mesh.vertices,
       acc.2.1 ++ mesh.indices.map (fun i => i + acc.2.2),
       acc.2.2 + mesh.vertices.length))
    ([], [], 0)
  ⟨result.1, result.2.1⟩

lemma add_face_fst_length (state : List Vertex × List Nat) (occluded : Bool)
    (quad : List Vertex) :
    ((Mesh.add_face state occluded quad).1).length =
      state.1.length + (if occluded then 0 else quad.length) := by
  rw [Mesh.add_face]
  split <;> simp

lemma add_face_snd_length (state : List Vertex × List Nat) (occluded : Bool)
    (quad : List Vertex) :
    ((Mesh.add_face state occluded quad).2).length =
      state.2.length + (if occluded then 0 else 6) := by
  rw [Mesh.add_face]
  split <;> simp [Mesh.extend_indices]

lemma voxel_vertices_length (world_position : WorldPosition)
    (voxel_properties : VoxelProperties) (texture_atlas : TextureAtlas)
    (nb : OccludingVoxelNeighbors) :
    (Mesh.voxel world_position voxel_properties texture_atlas nb).vertices.length =
      (if nb.front then 0 else 4) + (if nb.back then 0 else 4) +
        (if nb.right then 0 else 4) + (if nb.left then 0 else 4) +
        (if nb.top then 0 else 4) + (if nb.bottom then 0 else 4) := by
  simp only [Mesh.voxel, add_face_fst_length, List.length_cons, List.length_nil]
  split_ifs <;> rfl

lemma voxel_indices_length (world_position : WorldPosition)
    (voxel_properties : VoxelProperties) (texture_atlas : TextureAtlas)
    (nb : OccludingVoxelNeighbors) :
    (Mesh.voxel world_position voxel_properties texture_atlas nb).indices.length =
      (if nb.front then 0 else 6) + (if nb.back then 0 else 6) +
        (if nb.right then 0 else 6) + (if nb.left then 0 else 6) +
        (if nb.top then 0 else 6) + (if nb.bottom then 0 else 6) := by
  simp only [Mesh.voxel, add_face_snd_length]
  split_ifs <;> rfl

/-- C9: a voxel mesh built with all six occluding-neighbor flags set has no
vertices and no indices, and one built with all six flags clear has exactly
6 faces: 24 vertices and 36 indices — for every world position, every voxel
property set, and every atlas. -/
theorem spec_c9_occlusion_counts (world_position : WorldPosition)
    (voxel_properties : VoxelProperties) (texture_atlas : TextureAtlas) :
    ((Mesh.voxel world_position voxel_properties texture_atlas
          ⟨true, true, true, true, true, true⟩).vertices = [] ∧
      (Mesh.voxel world_position voxel_properties texture_atlas
          ⟨true, true, true, true, true, true⟩).indices = []) ∧
      ((Mesh.voxel world_position voxel_properties texture_atlas
          ⟨false, false, false, false, false, false⟩).vertices.length = 24 ∧
        (Mesh.voxel world_position voxel_properties texture_atlas
          ⟨false, false, false, false, false, false⟩).indices.length = 36) := by
  refine ⟨⟨rfl, rfl⟩, ?_, ?_⟩
  · rw [voxel_vertices_length]
    rfl
  · rw [voxel_indices_length]
    rfl

/-- A concrete atlas assigning the unit UV square to every texture, used to
evaluate the mesher at concrete inputs. -/
def atlas_unit : TextureAtlas := fun _ => ⟨0, 1, 0, 1⟩

/-- C2: evaluation of `Mesh::voxel` at a concrete failing input.  With only
the front face visible the mesh has 4 vertices but its six indices are
`[4, 5, 6, 6, 7, 4]`: `extend_indices` reads `vertices.len()` after the quad
was pushed, so the k-th face's quad base is `4(k+1)`, not `4k`, and the last
emitted face's indices lie outside the vertex buffer (7 is not < 4). -/
theorem spec_c2_counterexample :
    (Mesh.voxel ⟨0, 0, 0⟩ (VoxelRegistry.get_properties VoxelType.Stone) atlas_unit
        ⟨false, true, true, true, true, true⟩).indices = [4, 5, 6, 6, 7, 4] ∧
      (Mesh.voxel ⟨0, 0, 0⟩ (VoxelRegistry.get_properties VoxelType.Stone) atlas_unit
        ⟨false, true, true, true, true, true⟩).vertices.length = 4 ∧
      ∃ i ∈ (Mesh.voxel ⟨0, 0, 0⟩ (VoxelRegistry.get_properties VoxelType.Stone)
          atlas_unit ⟨false, true, true, true, true, true⟩).indices,
        ¬ i < (Mesh.voxel ⟨0, 0, 0⟩ (VoxelRegistry.get_properties VoxelType.Stone)
          atlas_unit ⟨false, true, true, true, true, true⟩).vertices.length := by
  have h1 : (Mesh.voxel ⟨0, 0, 0⟩ (VoxelRegistry.get_properties VoxelType.Stone)
      atlas_unit ⟨false, true, true, true, true, true⟩).indices = [4, 5, 6, 6, 7, 4] := rfl
  have h2 : (Mesh.voxel ⟨0, 0, 0⟩ (VoxelRegistry.get_properties VoxelType.Stone)
      atlas_unit ⟨false, true, true, true, true, true⟩).vertices.length = 4 := rfl
  refine ⟨h1, h2, 7, ?_, ?_⟩
  · rw [h1]
    decide
  · rw [h2]
    decide

/-- C10: merging two meshes concatenates the vertex buffers (so vertex counts
add), appends the index buffers (so index counts add), rebases every index of
the second mesh by the first mesh's vertex count, and therefore no index
contributed by the second mesh lands inside the first mesh's vertex range. -/
theorem spec_c10_merged_two (A B : Mesh) :
    (Mesh.merged [A, B]).vertices.length = A.vertices.length + B.vertices.length ∧
      (Mesh.merged [A, B]).index_count = A.index_count + B.index_count ∧
      (Mesh.merged [A, B]).indices =
        A.indices.map (fun i => i + 0) ++
          B.indices.map (fun i => i + A.vertices.length) ∧
      ∀ i ∈ B.indices.map (fun i => i + A.vertices.length),
        A.vertices.length ≤ i := by
  refine ⟨?_, ?_, ?_, ?_⟩
  · simp [Mesh.merged]
  · simp [Mesh.merged, Mesh.index_count]
  · simp [Mesh.merged]
  · intro i hi
    rw [List.mem_map] at hi
    obtain ⟨b, _, rfl⟩ := hi
    omega

/-- A placeholder vertex for concrete mesh values. -/
def vertex0 : Vertex := ⟨(0, 0, 0), (0, 0)⟩

/-- A concrete one-vertex mesh. -/
def mesh_a0 : Mesh := ⟨[vertex0], [0]⟩

/-- A concrete two-vertex mesh. -/
def mesh_b0 : Mesh := ⟨[vertex0, vertex0], [1, 0]⟩

/-- C10 witness: the merge facts evaluated on two concrete meshes; the rebased
index 2 = 1 + 1 stays outside the first mesh's vertex range. -/
theorem spec_c10_witness :
    ((2 : Nat) ∈ mesh_b0.indices.map (fun i => i + mesh_a0.vertices.length) ∧
        mesh_a0.vertices.length ≤ 2) ∧
      (Mesh.merged [mesh_a0, mesh_b0]).vertices.length = 3 ∧
      (Mesh.merged [mesh_a0, mesh_b0]).indices = [0, 2, 1] := by
  have h := spec_c10_merged_two mesh_a0 mesh_b0
  refine ⟨⟨by decide, h.2.2.2 2 (by decide)⟩, ?_, ?_⟩
  · rw [h.1]
    decide
  · rw [h.2.2.1]
    decide

/-- Source `World` (`src/game/world/mod.rs`): loaded chunk data and the mesh cache,
both keyed by `ChunkPosition`, plus the last observed origin.  The two
`HashMap`s are modelled by their lookup functions.  The `voxel_registry` and
`texture_atlas` fields are the constants produced by `VoxelRegistry::init` /
`TextureAtlas::init`; the registry table is the fixed
`VoxelRegistry.get_properties` above and the atlas is out-of-scope image glue,
so neither is carried as mutable state. -/
structure World where
  chunk_data : ChunkPosition → Option Chunk
  chunk_meshes : ChunkPosition → Option Mesh
  last_update_position : Option ChunkPosition

/-- Rust inclusive range `a..=b` over `i32`, as the list it iterates. -/
def int_range_inclusive (a b : Int) : List Int :=
  (List.range (b + 1 - a).toNat).map (fun (i : Nat) => a + (i : Int))

/-- Source `World::determine_chunks_in_range`: the triple loop over the bounding box
with the horizontal squared-distance test (and the redundant per-column test
the source performs with `continue`), followed by
`sort_by_cached_key` on squared distance to the origin (modelled by a stable
merge sort on the same key; the source's sort is also stable). -/
def World.determine_chunks_in_range (origin : ChunkPosition) : List ChunkPosition :=
  let xs := int_range_inclusive (origin.x - RENDER_DISTANCE_XZ) (origin.x + RENDER_DISTANCE_XZ)
  let ys := int_range_inclusive (origin.y - RENDER_DISTANCE_Y) (origin.y + RENDER_DISTANCE_Y)
  let zs := int_range_inclusive (origin.z - RENDER_DISTANCE_XZ) (origin.z + RENDER_DISTANCE_XZ)
  let chunks_in_range := xs.foldl
    (fun acc x =>
      if (x - origin.x) ^ 2 > RENDER_DISTANCE_XZ ^ 2 then acc
      else
        ys.foldl
          (fun acc1 y =>
            zs.foldl
              (fun acc2 z =>
                if (x - origin.x) ^ 2 + (z - origin.z) ^ 2 ≤ RENDER_DISTANCE_XZ ^ 2 then
                  acc2 ++ [ChunkPosition.mk x y z]
                else acc2)
              acc1)
          acc)
    []
  chunks_in_range.mergeSort
    (fun p q =>
      decide
        ((p.x - origin.x) ^ 2 + (p.y - origin.y) ^ 2 + (p.z - origin.z) ^ 2 ≤
          (q.x - origin.x) ^ 2 + (q.y - origin.y) ^ 2 + (q.z - origin.z) ^ 2))

/-- Source `World::unload_out_of_range_chunks`: `retain` chunk-data keys that are in
the in-range set (the `HashSet` collected from the in-range list is modelled
by list membership).  Nothing else is touched — in particular the mesh cache
is not. -/
def World.unload_out_of_range_chunks (w : World)
    (chunks_in_range : List ChunkPosition) : World :=
  { w with
    chunk_data := fun p => if p ∈ chunks_in_range then w.chunk_data p else none }

/-- Source `World::load_in_range_chunks`: for each in-range position, insert a fresh
`dev_chunk` when the key is absent; present entries are left untouched. -/
def World.load_in_range_chunks (w : World)
    (chunks_in_range : List ChunkPosition) : World :=
  { w with
    chunk_data := chunks_in_range.foldl
      (fun m p =>
        if (m p).isSome then m
        else fun q => if q = p then some (Chunk.dev_chunk p) else m q)
      w.chunk_data }

/-- Source `World::update_chunks`: record the origin, compute the in-range list,
evict, then load. -/
def World.update_chunks (w : World) (origin_chunk_position : ChunkPosition) : World :=
  let w1 := { w with last_update_position := some origin_chunk_position }
  let chunks_in_range := World.determine_chunks_in_range origin_chunk_position
  let w2 := w1.unload_out_of_range_chunks chunks_in_range
  w2.load_in_range_chunks chunks_in_range

/-- Source `World::get_voxel_type`: resolve the owning chunk; Air when unloaded. -/
def World.get_voxel_type (w : World) (world_position : WorldPosition) : VoxelType :=
  let pair := world_position.local_chunk_position
  match w.chunk_data pair.1 with
  | some chunk => chunk.get_voxel_type pair.2
  | none => VoxelType.Air

/-- Source `World::get_is_occluding`: occlusion flag of the resolved voxel type. -/
def World.get_is_occluding (w : World) (world_position : WorldPosition) : Bool :=
  (VoxelRegistry.get_properties (w.get_voxel_type world_position)).is_occluding

/-- Source `World::get_occluding_neighbors`: the six directional occlusion queries. -/
def World.get_occluding_neighbors (w : World) (world_position : WorldPosition) :
    OccludingVoxelNeighbors :=
  ⟨w.get_is_occluding world_position.front, w.get_is_occluding world_position.back,
   w.get_is_occluding world_position.right, w.get_is_occluding world_position.left,
   w.get_is_occluding world_position.top, w.get_is_occluding world_position.bottom⟩

lemma mem_int_range_inclusive {a b n : Int} :
    n ∈ int_range_inclusive a b ↔ a ≤ n ∧ n ≤ b := by
  simp only [int_range_inclusive, List.mem_map, List.mem_range]
  constructor
  · rintro ⟨i, hi, rfl⟩
    omega
  · intro h
    exact ⟨(n - a).toNat, by omega, by omega⟩

lemma chunk_eq_iff {p q : ChunkPosition} :
    p = q ↔ p.x = q.x ∧ p.y = q.y ∧ p.z = q.z := by
  obtain ⟨px, py, pz⟩ := p
  obtain ⟨qx, qy, qz⟩ := q
  simp

lemma foldl_append_ite {α β : Type} (c : α → Prop) [DecidablePred c] (g : α → List β)
    (xs : List α) (acc : List β) :
    xs.foldl (fun a x => if c x then a ++ g x else a) acc =
      acc ++ xs.flatMap (fun x => if c x then g x else []) := by
  induction xs generalizing acc with
  | nil => simp
  | cons x xs ih =>
    rw [List.foldl_cons, ih]
    by_cases hx : c x <;> simp [hx]

lemma foldl_append_body {α β : Type} (g : α → List β) (xs : List α) (acc : List β)
    (f : List β → α → List β) (hf : ∀ a x, f a x = a ++ g x) :
    xs.foldl f acc = acc ++ xs.flatMap g := by
  induction xs generalizing acc with
  | nil => simp
  | cons x xs ih =>
    rw [List.foldl_cons, ih, hf]
    simp

lemma sq_le_bound {a b : Int} (hb : 0 ≤ b) (h : a ^ 2 ≤ b ^ 2) : -b ≤ a ∧ a ≤ b := by
  constructor <;> nlinarith [sq_nonneg (a + b), sq_nonneg (a - b)]

/-- Membership in the streaming target list is exactly the cylindrical
selection of the spec: squared horizontal distance at most
`RENDER_DISTANCE_XZ²` and vertical offset within `RENDER_DISTANCE_Y`. -/
lemma mem_determine_chunks_in_range {origin q : ChunkPosition} :
    q ∈ World.determine_chunks_in_range origin ↔
      (q.x - origin.x) ^ 2 + (q.z - origin.z) ^ 2 ≤ RENDER_DISTANCE_XZ ^ 2 ∧
        |q.y - origin.y| ≤ RENDER_DISTANCE_Y := by
  rw [World.determine_chunks_in_range]
  rw [(List.mergeSort_perm _ _).mem_iff]
  rw [foldl_append_body
      (fun x =>
        if (x - origin.x) ^ 2 > RENDER_DISTANCE_XZ ^ 2 then []
        else
          (int_range_inclusive (origin.y - RENDER_DISTANCE_Y)
              (origin.y + RENDER_DISTANCE_Y)).flatMap
            (fun y =>
              (int_range_inclusive (origin.z - RENDER_DISTANCE_XZ)
                  (origin.z + RENDER_DISTANCE_XZ)).flatMap
                (fun z =>
                  if (x - origin.x) ^ 2 + (z - origin.z) ^ 2 ≤ RENDER_DISTANCE_XZ ^ 2
                  then [ChunkPosition.mk x y z]
                  else [])))
      _ _ _ ?_]
  · simp only [List.nil_append, List.mem_flatMap, mem_int_range_inclusive, abs_le,
      RENDER_DISTANCE_XZ, RENDER_DISTANCE_Y]
    constructor
    · rintro ⟨x, hx, hq⟩
      split at hq
      · simp at hq
      · simp only [List.mem_flatMap, mem_int_range_inclusive] at hq
        obtain ⟨y, hy, z, hz, hq⟩ := hq
        split at hq <;> simp_all [chunk_eq_iff]
        omega
    · intro h
      obtain ⟨h1, h2⟩ := h
      have hxb := sq_le_bound (b := 6) (by omega)
        (le_trans (by nlinarith [sq_nonneg (q.z - origin.z)]) h1)
      have hzb := sq_le_bound (b := 6) (by omega)
        (le_trans (by nlinarith [sq_nonneg (q.x - origin.x)]) h1)
      refine ⟨q.x, by omega, ?_⟩
      rw [if_neg (by nlinarith [sq_nonneg (q.z - origin.z)])]
      simp only [List.mem_flatMap, mem_int_range_inclusive]
      refine ⟨q.y, by omega, q.z, by omega, ?_⟩
      rw [if_pos h1]
      simp
  · intro a x
    dsimp only
    by_cases hx : (x - origin.x) ^ 2 > RENDER_DISTANCE_XZ ^ 2
    · rw [if_pos hx, if_pos hx]
      simp
    · rw [if_neg hx, if_neg hx]
      refine foldl_append_body _ _ _ _ (fun a1 y => ?_)
      dsimp only
      exact foldl_append_ite
        (fun z => (x - origin.x) ^ 2 + (z - origin.z) ^ 2 ≤ RENDER_DISTANCE_XZ ^ 2)
        (fun z => [ChunkPosition.mk x y z]) _ _

lemma load_foldl_lookup (L : List ChunkPosition) (m : ChunkPosition → Option Chunk)
    (p : ChunkPosition) :
    (L.foldl
        (fun m q =>
          if (m q).isSome then m
          else fun r => if r = q then some (Chunk.dev_chunk q) else m r)
        m) p =
      if (m p).isSome then m p
      else if p ∈ L then some (Chunk.dev_chunk p) else none := by
  induction L generalizing m with
  | nil =>
    cases h : m p <;> simp [h]
  | cons a L ih =>
    rw [List.foldl_cons, ih]
    by_cases ha : (m a).isSome
    · rw [if_pos ha]
      by_cases hp : (m p).isSome
      · rw [if_pos hp, if_pos hp]
      · rw [if_neg hp, if_neg hp]
        by_cases hpa : p = a
        · subst hpa
          exact absurd ha hp
        · simp [hpa]
    · rw [if_neg ha]
      by_cases hpa : p = a
      · subst hpa
        simp [ha]
      · simp only [if_neg hpa]
        by_cases hp : (m p).isSome
        · rw [if_pos hp, if_pos hp]
        · rw [if_neg hp, if_neg hp]
          simp [hpa]

/-- The chunk-data map after a full `update_chunks` pass, at any key. -/
lemma update_chunks_chunk_data (w : World) (origin p : ChunkPosition) :
    (w.update_chunks origin).chunk_data p =
      if p ∈ World.determine_chunks_in_range origin then
        (if (w.chunk_data p).isSome then w.chunk_data p
         else some (Chunk.dev_chunk p))
      else none := by
  show (World.load_in_range_chunks _ _).chunk_data p = _
  rw [World.load_in_range_chunks]
  simp only
  rw [load_foldl_lookup]
  rw [World.unload_out_of_range_chunks]
  simp only
  by_cases hp : p ∈ World.determine_chunks_in_range origin
  · rw [if_pos hp, if_pos hp, if_pos hp]
  · rw [if_neg hp, if_neg hp, if_neg hp]
    simp

/-- Source `update_chunks` never touches the mesh cache. -/
lemma update_chunks_chunk_meshes (w : World) (origin : ChunkPosition) :
    (w.update_chunks origin).chunk_meshes = w.chunk_meshes := rfl

/-- C6: after `update_chunks(origin)` the loaded key set is exactly the
cylindrical target set — `(x-ox)² + (z-oz)² ≤ RENDER_DISTANCE_XZ²` and
`|y-oy| ≤ RENDER_DISTANCE_Y` — and every chunk already present that remains in
the target set keeps its existing value untouched. -/
theorem spec_c6_streaming_target_set (w : World) (origin p : ChunkPosition) :
    (((w.update_chunks origin).chunk_data p).isSome ↔
        (p.x - origin.x) ^ 2 + (p.z - origin.z) ^ 2 ≤ RENDER_DISTANCE_XZ ^ 2 ∧
          |p.y - origin.y| ≤ RENDER_DISTANCE_Y) ∧
      ∀ c : Chunk,
        (p.x - origin.x) ^ 2 + (p.z - origin.z) ^ 2 ≤ RENDER_DISTANCE_XZ ^ 2 →
          |p.y - origin.y| ≤ RENDER_DISTANCE_Y →
            w.chunk_data p = some c → (w.update_chunks origin).chunk_data p = some c := by
  constructor
  · rw [update_chunks_chunk_data]
    by_cases hp : p ∈ World.determine_chunks_in_range origin
    · rw [if_pos hp]
      rw [mem_determine_chunks_in_range] at hp
      refine ⟨fun _ => hp, fun _ => ?_⟩
      by_cases hs : (w.chunk_data p).isSome
      · rw [if_pos hs]
        exact hs
      · rw [if_neg hs]
        rfl
    · rw [if_neg hp]
      rw [mem_determine_chunks_in_range] at hp
      simp [hp]
  · intro c h1 h2 hc
    rw [update_chunks_chunk_data,
      if_pos (mem_determine_chunks_in_range.mpr ⟨h1, h2⟩), hc]
    rfl

/-- A concrete world holding one loaded chunk at the origin and nothing else. -/
def world_one : World :=
  ⟨fun q => if q = ⟨0, 0, 0⟩ then some (Chunk.empty ⟨0, 0, 0⟩) else none,
   fun _ => none, none⟩

/-- C6 witness: streaming from origin `(0,0,0)` on `world_one` keeps the
already-loaded origin chunk untouched, and the origin satisfies the target
predicate. -/
theorem spec_c6_witness :
    (((0 : Int) - 0) ^ 2 + ((0 : Int) - 0) ^ 2 ≤ RENDER_DISTANCE_XZ ^ 2 ∧
        |(0 : Int) - 0| ≤ RENDER_DISTANCE_Y ∧
        world_one.chunk_data ⟨0, 0, 0⟩ = some (Chunk.empty ⟨0, 0, 0⟩)) ∧
      (world_one.update_chunks ⟨0, 0, 0⟩).chunk_data ⟨0, 0, 0⟩ =
        some (Chunk.empty ⟨0, 0, 0⟩) := by
  refine ⟨⟨by decide, by decide, rfl⟩, ?_⟩
  exact (spec_c6_streaming_target_set world_one ⟨0, 0, 0⟩ ⟨0, 0, 0⟩).2
    (Chunk.empty ⟨0, 0, 0⟩) (by decide) (by decide) rfl

/-- A concrete world with chunk data and a cached mesh at `(100, 0, 0)`,
far outside the render range of origin `(0, 0, 0)`. -/
def world_far : World :=
  ⟨fun q => if q = ⟨100, 0, 0⟩ then some (Chunk.empty ⟨100, 0, 0⟩) else none,
   fun q => if q = ⟨100, 0, 0⟩ then some (Mesh.mk [] []) else none,
   none⟩

/-- C1: evaluation at a concrete failing input.  `update_chunks((0,0,0))`
evicts the chunk-data entry at `(100, 0, 0)` but leaves that key's mesh-cache
entry in place (`update_chunks` never touches `chunk_meshes`), so the
mesh-cache key set is not a subset of the chunk-data key set after the pass. -/
theorem spec_c1_counterexample :
    (world_far.update_chunks ⟨0, 0, 0⟩).chunk_data ⟨100, 0, 0⟩ = none ∧
      ((world_far.update_chunks ⟨0, 0, 0⟩).chunk_meshes ⟨100, 0, 0⟩).isSome = true := by
  constructor
  · rw [update_chunks_chunk_data, if_neg]
    rw [mem_determine_chunks_in_range]
    decide
  · rw [update_chunks_chunk_meshes]
    decide

/-- C7: when the owning chunk of a world position is not loaded,
`get_voxel_type` answers Air and `get_is_occluding` answers false; as a
consequence, any voxel whose front neighbor is that position gets a clear
front occlusion flag, and the mesher emits at least one quad (at least 4
vertices) for it whatever its other neighbors look like. -/
theorem spec_c7_unloaded_neighbor (w : World) (wp : WorldPosition)
    (h : w.chunk_data wp.chunk_position = none) :
    w.get_voxel_type wp = VoxelType.Air ∧
      w.get_is_occluding wp = false ∧
      ∀ q : WorldPosition, q.front = wp →
        ((w.get_occluding_neighbors q).front = false ∧
          ∀ (props : VoxelProperties) (atlas : TextureAtlas),
            4 ≤ (Mesh.voxel q props atlas
                (w.get_occluding_neighbors q)).vertices.length) := by
  have hair : w.get_voxel_type wp = VoxelType.Air := by
    rw [World.get_voxel_type]
    have hfst : (wp.local_chunk_position).1 = wp.chunk_position := rfl
    rw [hfst, h]
  have hocc : w.get_is_occluding wp = false := by
    rw [World.get_is_occluding, hair]
    rfl
  refine ⟨hair, hocc, fun q hq => ?_⟩
  have hfront : (w.get_occluding_neighbors q).front = false := by
    rw [World.get_occluding_neighbors]
    simp only
    rw [hq]
    exact hocc
  refine ⟨hfront, fun props atlas => ?_⟩
  rw [voxel_vertices_length, hfront]
  simp only [Bool.false_eq_true, if_false]
  omega

/-- A world with no chunks loaded at all. -/
def world_empty : World := ⟨fun _ => none, fun _ => none, none⟩

/-- C7 witness: in the empty world, the queries at the origin position degrade
to Air / non-occluding, and the voxel at `(0, 0, -1)` (whose front neighbor is
the origin) emits its front face. -/
theorem spec_c7_witness :
    (world_empty.chunk_data ((⟨0, 0, 0⟩ : WorldPosition).chunk_position) = none ∧
        (⟨0, 0, -1⟩ : WorldPosition).front = ⟨0, 0, 0⟩) ∧
      world_empty.get_voxel_type ⟨0, 0, 0⟩ = VoxelType.Air ∧
      world_empty.get_is_occluding ⟨0, 0, 0⟩ = false ∧
      (world_empty.get_occluding_neighbors ⟨0, 0, -1⟩).front = false ∧
      4 ≤ (Mesh.voxel ⟨0, 0, -1⟩ (VoxelRegistry.get_properties VoxelType.Stone)
          atlas_unit (world_empty.get_occluding_neighbors ⟨0, 0, -1⟩)).vertices.length := by
  have h := spec_c7_unloaded_neighbor world_empty ⟨0, 0, 0⟩ rfl
  have h3 := h.2.2 ⟨0, 0, -1⟩ (by decide)
  exact ⟨⟨rfl, by decide⟩, h.1, h.2.1, h3.1,
    h3.2 (VoxelRegistry.get_properties VoxelType.Stone) atlas_unit⟩

end Cairn
